import Mathlib

/-!
Shallow embedding of `load_tweets.py`: a loader that normalizes tweet JSON
documents into a relational store (tables `urls`, `users`, `tweets`,
`tweet_urls`, `tweet_mentions`, `tweet_tags`, `tweet_media`).

Python values are modelled by `PyVal`; Python exceptions by `PyErr`; the
database by `DB`.  Each Python statement is translated in source order, and
each SQL `INSERT ... ON CONFLICT DO NOTHING` becomes a conditional append.
-/

/-- A decoded JSON / Python value, as manipulated by `load_tweets.py`. -/
inductive PyVal where
  | none
  | bool (b : Bool)
  | int (n : Int)
  | str (s : String)
  | list (xs : List PyVal)
  | dict (kvs : List (String × PyVal))

mutual

/-- Structural decidable equality for `PyVal` (the deriving handler does not
support this nested inductive, so it is spelled out). -/
def PyVal.deq : (a b : PyVal) → Decidable (a = b)
  | .none, .none => isTrue rfl
  | .bool a, .bool b =>
      match decEq a b with
      | isTrue h => isTrue (by rw [h])
      | isFalse h => isFalse (fun hh => h (by cases hh; rfl))
  | .int a, .int b =>
      match decEq a b with
      | isTrue h => isTrue (by rw [h])
      | isFalse h => isFalse (fun hh => h (by cases hh; rfl))
  | .str a, .str b =>
      match decEq a b with
      | isTrue h => isTrue (by rw [h])
      | isFalse h => isFalse (fun hh => h (by cases hh; rfl))
  | .list xs, .list ys =>
      match PyVal.deqList xs ys with
      | isTrue h => isTrue (by rw [h])
      | isFalse h => isFalse (fun hh => h (by cases hh; rfl))
  | .dict xs, .dict ys =>
      match PyVal.deqDict xs ys with
      | isTrue h => isTrue (by rw [h])
      | isFalse h => isFalse (fun hh => h (by cases hh; rfl))
  | .none, .bool _ | .none, .int _ | .none, .str _ | .none, .list _ | .none, .dict _
  | .bool _, .none | .bool _, .int _ | .bool _, .str _ | .bool _, .list _ | .bool _, .dict _
  | .int _, .none | .int _, .bool _ | .int _, .str _ | .int _, .list _ | .int _, .dict _
  | .str _, .none | .str _, .bool _ | .str _, .int _ | .str _, .list _ | .str _, .dict _
  | .list _, .none | .list _, .bool _ | .list _, .int _ | .list _, .str _ | .list _, .dict _
  | .dict _, .none | .dict _, .bool _ | .dict _, .int _ | .dict _, .str _ | .dict _, .list _ =>
      isFalse (fun h => by cases h)

/-- Decidable equality on lists of `PyVal`. -/
def PyVal.deqList : (a b : List PyVal) → Decidable (a = b)
  | [], [] => isTrue rfl
  | [], _ :: _ => isFalse (fun h => by cases h)
  | _ :: _, [] => isFalse (fun h => by cases h)
  | x :: xs, y :: ys =>
      match PyVal.deq x y with
      | isTrue h1 =>
        match PyVal.deqList xs ys with
        | isTrue h2 => isTrue (by rw [h1, h2])
        | isFalse h2 => isFalse (fun hh => h2 (by cases hh; rfl))
      | isFalse h1 => isFalse (fun hh => h1 (by cases hh; rfl))

/-- Decidable equality on key-value lists of `PyVal`. -/
def PyVal.deqDict : (a b : List (String × PyVal)) → Decidable (a = b)
  | [], [] => isTrue rfl
  | [], _ :: _ => isFalse (fun h => by cases h)
  | _ :: _, [] => isFalse (fun h => by cases h)
  | (k, x) :: xs, (k2, y) :: ys =>
      match decEq k k2 with
      | isTrue hk =>
        match PyVal.deq x y with
        | isTrue h1 =>
          match PyVal.deqDict xs ys with
          | isTrue h2 => isTrue (by rw [hk, h1, h2])
          | isFalse h2 => isFalse (fun hh => h2 (by cases hh; rfl))
        | isFalse h1 => isFalse (fun hh => h1 (by cases hh; rfl))
      | isFalse hk => isFalse (fun hh => hk (by cases hh; rfl))

end

instance : DecidableEq PyVal := PyVal.deq

/-- The Python exception classes that the loader's control flow distinguishes. -/
inductive PyErr where
  | keyError
  | typeError
  | indexError
  | attributeError
deriving DecidableEq

/-- `v[k]` for a string key: dict lookup (KeyError when missing); subscripting
`None` or any non-dict raises TypeError, as in Python. -/
def getItem : PyVal → String → Except PyErr PyVal
  | .dict kvs, k =>
      match kvs.lookup k with
      | some v => .ok v
      | Option.none => .error .keyError
  | _, _ => .error .typeError

/-- `v.get(k)` (dict method): missing key yields `None`; calling `.get` on a
non-dict raises AttributeError. -/
def pyGet : PyVal → String → Except PyErr PyVal
  | .dict kvs, k => .ok ((kvs.lookup k).getD .none)
  | _, _ => .error .attributeError

/-- `v[i]` for a non-negative integer index. -/
def getIdx : PyVal → Nat → Except PyErr PyVal
  | .list xs, i =>
      match xs.get? i with
      | some x => .ok x
      | Option.none => .error .indexError
  | .dict _, _ => .error .keyError
  | _, _ => .error .typeError

/-- `str(v)` / f-string formatting.  Container reprs are abbreviated; the
loader only ever formats identifiers (ints or strings) on live paths. -/
def pyStr : PyVal → String
  | .none => "None"
  | .bool true => "True"
  | .bool false => "False"
  | .int n => toString n
  | .str s => s
  | .list _ => "<obj>"
  | .dict _ => "<obj>"

/-- Python truthiness, for `if tweet.get('in_reply_to_user_id')`. -/
def pyTruthy : PyVal → Bool
  | .none => false
  | .bool b => b
  | .int n => n != 0
  | .str s => !s.isEmpty
  | .list xs => !xs.isEmpty
  | .dict kvs => !kvs.isEmpty

/-- `for x in v`: lists yield elements, dicts their keys, strings their
characters; other values are not iterable (TypeError). -/
def pyIter : PyVal → Except PyErr (List PyVal)
  | .list xs => .ok xs
  | .dict kvs => .ok (kvs.map (fun kv => PyVal.str kv.1))
  | .str s => .ok (s.data.map (fun c => PyVal.str (String.singleton c)))
  | _ => .error .typeError

/-- `v.lower()`: defined on strings only (ASCII case mapping). -/
def pyLower : PyVal → Except PyErr PyVal
  | .str s => .ok (.str (s.map Char.toLower))
  | _ => .error .attributeError

/-- A value expected to be a string (for `.split` / `.strip` receivers). -/
def asStr : PyVal → Except PyErr String
  | .str s => .ok s
  | _ => .error .attributeError

/-- `'#' + v`: string concatenation; TypeError when `v` is not a string. -/
def pyAddStr (a : String) : PyVal → Except PyErr String
  | .str s => .ok (a ++ s)
  | _ => .error .typeError

/-! ## The sanitizer `remove_nulls` (load_tweets.py lines 14-27) -/

/-- Core of `s.replace('\x00','')`: delete every NUL character from `s`
(replacing a one-character pattern by the empty string is deletion of each
occurrence). -/
def removeNullsStr (s : String) : String :=
  ⟨s.data.filter (fun c => c != '\x00')⟩

/-- `remove_nulls(s)`: `None` is returned unchanged; a string has its NUL
characters removed; `.replace` on any other value raises AttributeError. -/
def remove_nulls : PyVal → Except PyErr PyVal
  | .none => .ok .none
  | .str s => .ok (.str (removeNullsStr s))
  | _ => .error .attributeError

/-- A value acceptable as a sanitized text parameter: NULL, or a string with
no NUL character. -/
def sanOK : PyVal → Bool
  | .none => true
  | .str s => s.data.all (fun c => c != '\x00')
  | _ => false

/-! ## Database state

Row types carry the bound SQL parameters as they were passed by the Python
code (`PyVal`), so that the store faithfully records e.g. whether an
identifier was bound as a string or as a raw integer.  The primary-key
columns of `users` and `tweets` are text columns; binding coerces the
parameter to its text form (`pyStr`), which makes conflict detection on
those keys behave like the database's uniqueness constraint. -/

/-- A row of the `users` table (15 columns, lines 87-123).  `protected` is a
Lean keyword, hence the trailing underscore. -/
structure UserRow where
  id_users : String
  created_at : PyVal
  updated_at : PyVal
  screen_name : PyVal
  name : PyVal
  location : PyVal
  id_urls : PyVal
  description : PyVal
  protected_ : PyVal
  verified : PyVal
  friends_count : PyVal
  listed_count : PyVal
  favourites_count : PyVal
  statuses_count : PyVal
  withheld_in_countries : PyVal
deriving DecidableEq

/-- A row of the `tweets` table (18 columns, lines 201-243). -/
structure TweetRow where
  id_tweets : String
  id_users : PyVal
  created_at : PyVal
  in_reply_to_status_id : PyVal
  in_reply_to_user_id : PyVal
  quoted_status_id : PyVal
  retweet_count : PyVal
  favorite_count : PyVal
  quote_count : PyVal
  withheld_copyright : PyVal
  withheld_in_countries : PyVal
  source : PyVal
  text : PyVal
  country_code : PyVal
  state_code : PyVal
  lang : PyVal
  place_name : PyVal
  geo : PyVal
deriving DecidableEq

/-- A row of `tweet_urls` (lines 275-283): the `id_tweets` parameter is kept
exactly as bound. -/
structure TweetUrlRow where
  id_tweets : PyVal
  id_urls : Nat
deriving DecidableEq

/-- A row of `tweet_mentions` (lines 303-311). -/
structure TweetMentionRow where
  id_tweets : PyVal
  id_users : PyVal
deriving DecidableEq

/-- A row of `tweet_tags` (lines 325-333). -/
structure TweetTagRow where
  id_tweets : PyVal
  tag : PyVal
deriving DecidableEq

/-- A row of `tweet_media` (lines 348-357). -/
structure TweetMediaRow where
  id_tweets : PyVal
  id_urls : Nat
  type : PyVal
deriving DecidableEq

/-- The relational store.  `urls` pairs each serial `id_urls` with the bound
url value; `nextUrlId` is the serial sequence. -/
structure DB where
  urls : List (Nat × PyVal)
  nextUrlId : Nat
  users : List UserRow
  tweets : List TweetRow
  tweet_urls : List TweetUrlRow
  tweet_mentions : List TweetMentionRow
  tweet_tags : List TweetTagRow
  tweet_media : List TweetMediaRow
deriving DecidableEq

/-- The pre-provisioned empty store. -/
def emptyDB : DB := ⟨[], 0, [], [], [], [], [], []⟩

/-! ## Table operations (each SQL statement of the source) -/

/-- `get_id_urls` (lines 30-54): `INSERT INTO urls ... ON CONFLICT DO NOTHING
RETURNING id_urls`; when the insert conflicts with an existing row for the
same url the returned cursor is empty and the existing row is read back by
the `SELECT id_urls FROM urls WHERE url = :url` fallback. -/
def get_id_urls (url : PyVal) (db : DB) : DB × Nat :=
  match db.urls.find? (fun r => r.2 == url) with
  | some r => (db, r.1)
  | Option.none =>
      ({ db with
          urls := db.urls ++ [(db.nextUrlId, url)],
          nextUrlId := db.nextUrlId + 1 },
        db.nextUrlId)

/-- `INSERT INTO users ... ON CONFLICT (id_users) DO NOTHING` (used both by
the hydration insert of lines 87-140 and by the stub inserts of lines
191-196 and 295-300, whose unlisted columns default to NULL). -/
def insertUser (db : DB) (row : UserRow) : DB :=
  if db.users.any (fun r => r.id_users == row.id_users) then db
  else { db with users := db.users ++ [row] }

/-- A stub `users` row: only `id_users` is supplied, every other column is
NULL. -/
def stubRow (k : String) : UserRow :=
  ⟨k, .none, .none, .none, .none, .none, .none, .none, .none, .none, .none,
    .none, .none, .none, .none⟩

/-- `SELECT id_tweets FROM tweets WHERE id_tweets = :id_tweets` yields a row
(line 69-74). -/
def tweetExists (db : DB) (k : String) : Bool :=
  db.tweets.any (fun r => r.id_tweets == k)

/-- Find the `users` row for a key. -/
def lookupUser (db : DB) (k : String) : Option UserRow :=
  db.users.find? (fun r => r.id_users == k)

/-- `INSERT INTO tweets ... ON CONFLICT DO NOTHING` (lines 201-263). -/
def insertTweetRowDB (db : DB) (row : TweetRow) : DB :=
  if db.tweets.any (fun r => r.id_tweets == row.id_tweets) then db
  else { db with tweets := db.tweets ++ [row] }

/-- `INSERT INTO tweet_urls ... ON CONFLICT DO NOTHING`. -/
def insertTweetUrl (db : DB) (idT : PyVal) (idU : Nat) : DB :=
  if db.tweet_urls.any (fun r => r.id_tweets == idT && r.id_urls == idU) then db
  else { db with tweet_urls := db.tweet_urls ++ [⟨idT, idU⟩] }

/-- `INSERT INTO tweet_mentions ... ON CONFLICT DO NOTHING`. -/
def insertTweetMention (db : DB) (idT mid : PyVal) : DB :=
  if db.tweet_mentions.any (fun r => r.id_tweets == idT && r.id_users == mid) then db
  else { db with tweet_mentions := db.tweet_mentions ++ [⟨idT, mid⟩] }

/-- `INSERT INTO tweet_tags ... ON CONFLICT DO NOTHING`. -/
def insertTweetTag (db : DB) (idT tag : PyVal) : DB :=
  if db.tweet_tags.any (fun r => r.id_tweets == idT && r.tag == tag) then db
  else { db with tweet_tags := db.tweet_tags ++ [⟨idT, tag⟩] }

/-- `INSERT INTO tweet_media ... ON CONFLICT DO NOTHING`. -/
def insertTweetMedia (db : DB) (idT : PyVal) (idU : Nat) (ty : PyVal) : DB :=
  if db.tweet_media.any
      (fun r => r.id_tweets == idT && r.id_urls == idU && r.type == ty) then db
  else { db with tweet_media := db.tweet_media ++ [⟨idT, idU, ty⟩] }

/-! ## Field extraction (load_tweets.py section 3, lines 142-187) -/

/-- `try: a except KeyError: b` — only KeyError is caught. -/
def onKeyError {α : Type} (a b : Except PyErr α) : Except PyErr α :=
  match a with
  | .error .keyError => b
  | r => r

/-- `try: a except (TypeError, KeyError): b`. -/
def onTKError {α : Type} (a b : Except PyErr α) : Except PyErr α :=
  match a with
  | .error .keyError => b
  | .error .typeError => b
  | r => r

/-- Outcome of the geography block of lines 145-165.  `unbound` is the
Python state in which neither `geo_str` nor `geo_coords` was assigned
(reachable because the code leaves them unset when the user's
`geo_enabled` is falsy); both variables are never read afterwards. -/
inductive GeoResult where
  | point (coords : PyVal)
  | multipolygon (coords : String)
  | enabledUnknown
  | unbound
deriving DecidableEq

/-- Inner loop of the bounding-box serialization:
`geo_coords += f"{point[0]} {point[1]},"` for each point. -/
def pointsStr : String → List PyVal → Except PyErr String
  | acc, [] => .ok acc
  | acc, point :: rest => do
      let a ← getIdx point 0
      let b ← getIdx point 1
      pointsStr (acc ++ pyStr a ++ " " ++ pyStr b ++ ",") rest

/-- Outer loop of the bounding-box serialization (lines 151-159): separator
comma from the second polygon on, open parenthesis, the points, then the
ring is closed with the first point of the polygon. -/
def polysStr : String → Nat → List PyVal → Except PyErr String
  | acc, _, [] => .ok acc
  | acc, i, poly :: rest => do
      let acc1 := (if i > 0 then acc ++ "," else acc) ++ "("
      let pts ← pyIter poly
      let acc2 ← pointsStr acc1 pts
      let p0 ← getIdx poly 0
      let x ← getIdx p0 0
      let y ← getIdx p0 1
      polysStr (acc2 ++ pyStr x ++ " " ++ pyStr y ++ ")") (i + 1) rest

/-- Lines 145-165.  The outer `try` around `tweet['geo']['coordinates']`
catches only TypeError; the inner `try` around the bounding-box loop catches
only KeyError, whose handler reads `tweet['user']['geo_enabled']`.  Every
other exception (e.g. a KeyError from a missing `geo` key, or a TypeError
from subscripting a null `place`) propagates. -/
def geoBlock (tweet : PyVal) : Except PyErr GeoResult :=
  match (do
      let g ← getItem tweet "geo"
      getItem g "coordinates" : Except PyErr PyVal) with
  | .ok c => .ok (.point c)
  | .error .typeError =>
      match (do
          let p ← getItem tweet "place"
          let bb ← getItem p "bounding_box"
          let cs ← getItem bb "coordinates"
          let polys ← pyIter cs
          let s ← polysStr "(" 0 polys
          pure (s ++ ")") : Except PyErr String) with
      | .ok s => .ok (.multipolygon s)
      | .error .keyError => do
          let u ← getItem tweet "user"
          let ge ← getItem u "geo_enabled"
          if pyTruthy ge then .ok .enabledUnknown else .ok .unbound
      | .error e => .error e
  | .error e => .error e

/-- Lines 167-170: `tweet['extended_tweet']['full_text']`, falling back to
`tweet['text']` on KeyError. -/
def extractText (tweet : PyVal) : Except PyErr PyVal :=
  onKeyError
    (do
      let et ← getItem tweet "extended_tweet"
      getItem et "full_text")
    (getItem tweet "text")

/-- Lines 172-175: the place's country code lower-cased, null on
TypeError/KeyError (AttributeError from `.lower()` on a non-string is not
caught). -/
def extractCountryCode (tweet : PyVal) : Except PyErr PyVal :=
  onTKError
    (do
      let p ← getItem tweet "place"
      let c ← getItem p "country_code"
      pyLower c)
    (.ok .none)

/-- Lines 177-182: the state code is derived only when the country code
equals `"us"`: last comma-separated segment of the place's full name,
stripped and lower-cased, discarded when longer than two characters. -/
def extractStateCode (tweet : PyVal) (cc : PyVal) : Except PyErr PyVal :=
  if cc == PyVal.str "us" then do
    let p ← getItem tweet "place"
    let fn ← getItem p "full_name"
    let s ← asStr fn
    let tok := (((s.splitOn ",").getLastD "").trim).map Char.toLower
    .ok (if tok.length > 2 then PyVal.none else .str tok)
  else .ok .none

/-- Lines 184-187: the place's full name, null on TypeError/KeyError. -/
def extractPlaceName (tweet : PyVal) : Except PyErr PyVal :=
  onTKError
    (do
      let p ← getItem tweet "place"
      getItem p "full_name")
    (.ok .none)

/-- Lines 268-271: url entities, extended wrapper first. -/
def extractUrls (tweet : PyVal) : Except PyErr PyVal :=
  onKeyError
    (do
      let et ← getItem tweet "extended_tweet"
      let e ← getItem et "entities"
      getItem e "urls")
    (do
      let e ← getItem tweet "entities"
      getItem e "urls")

/-- Lines 288-291: user mentions, extended wrapper first. -/
def extractMentions (tweet : PyVal) : Except PyErr PyVal :=
  onKeyError
    (do
      let et ← getItem tweet "extended_tweet"
      let e ← getItem et "entities"
      getItem e "user_mentions")
    (do
      let e ← getItem tweet "entities"
      getItem e "user_mentions")

/-- Lines 316-321: hashtags and cashtags are read inside ONE `try`, so a
KeyError on either of them makes BOTH fall back to the base wrapper. -/
def extractTags2 (tweet : PyVal) : Except PyErr (PyVal × PyVal) :=
  onKeyError
    (do
      let et ← getItem tweet "extended_tweet"
      let e ← getItem et "entities"
      let h ← getItem e "hashtags"
      let c ← getItem e "symbols"
      .ok (h, c))
    (do
      let e ← getItem tweet "entities"
      let h ← getItem e "hashtags"
      let c ← getItem e "symbols"
      .ok (h, c))

/-- Lines 338-344: media, with a second fallback tier and a final empty
list. -/
def extractMedia (tweet : PyVal) : Except PyErr PyVal :=
  onKeyError
    (do
      let et ← getItem tweet "extended_tweet"
      let ee ← getItem et "extended_entities"
      getItem ee "media")
    (onKeyError
      (do
        let ee ← getItem tweet "extended_entities"
        getItem ee "media")
      (.ok (.list [])))

/-- Line 323: `['#' + h['text'] for h in hashtags]` (and the `'$'`
analogue): each element's `text` key is read and concatenated onto the
marker. -/
def buildTags (mark : String) : List PyVal → Except PyErr (List PyVal)
  | [] => .ok []
  | h :: rest => do
      let t ← getItem h "text"
      let s ← pyAddStr mark t
      let others ← buildTags mark rest
      .ok (PyVal.str s :: others)

/-! ## The record writer `insert_tweet` (lines 57-357) -/

/-- `WriteOutcome`: which path the per-record transaction took — the early
`return` of line 77 (already present) or the full insert path. -/
inductive Outcome where
  | inserted
  | skippedAlreadyPresent
deriving DecidableEq

/-- Lines 82-85: the author's profile url is resolved through `get_id_urls`
unless it is `None`. -/
def resolveUserUrl (uurl : PyVal) (db : DB) : DB × PyVal :=
  match uurl with
  | .none => (db, .none)
  | _ => ((get_id_urls uurl db).1, .int ((get_id_urls uurl db).2))

/-- The parameter set of the `users` hydration insert (lines 124-140),
evaluated in source order.  Note that every profile column except
`id_users` and `id_urls` is read from the TOP-LEVEL record via
`tweet.get(...)`, exactly as the source does. -/
def userRowOf (tweet user : PyVal) (user_id_urls : PyVal) :
    Except PyErr UserRow := do
  let idu ← getItem user "id"
  let created_at ← pyGet tweet "created_at"
  let updated_at ← pyGet tweet "updated_at"
  let screen_name ← pyGet tweet "screen_name"
  let nm ← pyGet tweet "name"
  let location ← pyGet tweet "location"
  let description ← pyGet tweet "description"
  let prot ← pyGet tweet "protected"
  let verified ← pyGet tweet "verified"
  let friends_count ← pyGet tweet "friends_count"
  let listed_count ← pyGet tweet "listed_count"
  let favourites_count ← pyGet tweet "favourites_count"
  let statuses_count ← pyGet tweet "statuses_count"
  let withheld ← pyGet tweet "withheld_in_countries"
  .ok ⟨pyStr idu, created_at, updated_at, screen_name, nm, location,
    user_id_urls, description, prot, verified, friends_count, listed_count,
    favourites_count, statuses_count, withheld⟩

/-- Lines 189-196: when `tweet.get('in_reply_to_user_id')` is not `None`, a
stub row for `str(tweet['in_reply_to_user_id'])` is inserted (the direct
subscript of line 196 returns the same value the `.get` returned). -/
def replyStub (rep : PyVal) (db : DB) : DB :=
  match rep with
  | .none => db
  | _ => insertUser db (stubRow (pyStr rep))

/-- The parameter set of the `tweets` insert (lines 244-263), evaluated in
source order.  `id_tweets` and `id_users` are bound via `str(...)`;
`in_reply_to_user_id` is `str(...)` only when truthy; the six free-text
fields go through `remove_nulls`; `geo` is bound as the literal `None`. -/
def tweetRowOf (tweet user : PyVal) (text cc sc pn : PyVal) :
    Except PyErr TweetRow :=
  match getItem tweet "id" with
  | .error e => .error e
  | .ok idT =>
  match getItem user "id" with
  | .error e => .error e
  | .ok idU =>
  match pyGet tweet "created_at" with
  | .error e => .error e
  | .ok created_at =>
  match pyGet tweet "in_reply_to_status_id" with
  | .error e => .error e
  | .ok inReplyStatus =>
  match pyGet tweet "in_reply_to_user_id" with
  | .error e => .error e
  | .ok inReplyUser =>
  match pyGet tweet "quoted_status_id" with
  | .error e => .error e
  | .ok quoted =>
  match pyGet tweet "retweet_count" with
  | .error e => .error e
  | .ok rtc =>
  match pyGet tweet "favorite_count" with
  | .error e => .error e
  | .ok fvc =>
  match pyGet tweet "quote_count" with
  | .error e => .error e
  | .ok qc =>
  match pyGet tweet "withheld_copyright" with
  | .error e => .error e
  | .ok wcp =>
  match pyGet tweet "withheld_in_countries" with
  | .error e => .error e
  | .ok wic =>
  match pyGet tweet "source" with
  | .error e => .error e
  | .ok src =>
  match remove_nulls src with
  | .error e => .error e
  | .ok srcS =>
  match remove_nulls text with
  | .error e => .error e
  | .ok textS =>
  match remove_nulls cc with
  | .error e => .error e
  | .ok ccS =>
  match remove_nulls sc with
  | .error e => .error e
  | .ok scS =>
  match pyGet tweet "lang" with
  | .error e => .error e
  | .ok lang =>
  match remove_nulls lang with
  | .error e => .error e
  | .ok langS =>
  match remove_nulls pn with
  | .error e => .error e
  | .ok pnS =>
  .ok ⟨pyStr idT, PyVal.str (pyStr idU), created_at, inReplyStatus,
    (if pyTruthy inReplyUser then PyVal.str (pyStr inReplyUser) else .none),
    quoted, rtc, fvc, qc, wcp, wic, srcS, textS, ccS, scS, langS, pnS,
    PyVal.none⟩

/-- The pure extraction sequence of lines 145-187 plus the
`tweet.get('in_reply_to_user_id')` read of line 190, in source order:
geography block first (its result is never used afterwards — the computed
geometry is dead), then text, country code, state code, place name. -/
def extractedOf (tweet : PyVal) :
    Except PyErr (PyVal × PyVal × PyVal × PyVal × PyVal) :=
  match geoBlock tweet with
  | .error e => .error e
  | .ok _ =>
  match extractText tweet with
  | .error e => .error e
  | .ok text =>
  match extractCountryCode tweet with
  | .error e => .error e
  | .ok cc =>
  match extractStateCode tweet cc with
  | .error e => .error e
  | .ok sc =>
  match extractPlaceName tweet with
  | .error e => .error e
  | .ok pn =>
  match pyGet tweet "in_reply_to_user_id" with
  | .error e => .error e
  | .ok rep => .ok (text, cc, sc, pn, rep)

/-- Lines 273-283: for each url entity, resolve `expanded_url` and insert
the association; `id_tweets` is bound RAW (`tweet['id']`, no `str`). -/
def urlsLoop (idT : PyVal) : DB → List PyVal → Except (PyErr × DB) DB
  | db, [] => .ok db
  | db, u :: rest =>
      match getItem u "expanded_url" with
      | .error e => .error (e, db)
      | .ok url =>
          match get_id_urls url db with
          | (db2, idu) => urlsLoop idT (insertTweetUrl db2 idT idu) rest

/-- Lines 293-311: for each mention, insert a stub user with the RAW
`mention['id']` (its text-column binding coerces to `pyStr`), then the
association row with the raw ids. -/
def mentionsLoop (idT : PyVal) : DB → List PyVal → Except (PyErr × DB) DB
  | db, [] => .ok db
  | db, m :: rest =>
      match getItem m "id" with
      | .error e => .error (e, db)
      | .ok mid =>
          let db2 := insertUser db (stubRow (pyStr mid))
          mentionsLoop idT (insertTweetMention db2 idT mid) rest

/-- Lines 324-333: each tag string is sanitized and inserted with the raw
`tweet['id']`. -/
def tagsLoop (idT : PyVal) : DB → List PyVal → Except (PyErr × DB) DB
  | db, [] => .ok db
  | db, tag :: rest =>
      match remove_nulls tag with
      | .error e => .error (e, db)
      | .ok tagS => tagsLoop idT (insertTweetTag db idT tagS) rest

/-- Lines 346-357: for each media entity, resolve `media_url` (this write
precedes the read of `m['type']`), then insert the association with the
sanitized type and raw `tweet['id']`. -/
def mediaLoop (idT : PyVal) : DB → List PyVal → Except (PyErr × DB) DB
  | db, [] => .ok db
  | db, m :: rest =>
      match getItem m "media_url" with
      | .error e => .error (e, db)
      | .ok murl =>
          match get_id_urls murl db with
          | (db2, idu) =>
              match (do
                  let ty ← getItem m "type"
                  remove_nulls ty : Except PyErr PyVal) with
              | .error e => .error (e, db2)
              | .ok tyS => mediaLoop idT (insertTweetMedia db2 idT idu tyS) rest

/-- Step 2 of the writer (lines 79-140): resolve the author's profile url,
then run the hydration insert. -/
def phaseUser (tweet user : PyVal) (db : DB) : Except (PyErr × DB) DB :=
  match getItem user "url" with
  | .error e => .error (e, db)
  | .ok uurl =>
      match resolveUserUrl uurl db with
      | (db2, uIdUrls) =>
          match userRowOf tweet user uIdUrls with
          | .error e => .error (e, db2)
          | .ok urow => .ok (insertUser db2 urow)

/-- Steps 5-8 of the writer (lines 265-357), in source order: url
associations, mention stubs and associations, tags, media.  Tag strings of
the two comprehensions of line 323 are fully built (hashtags then cashtags)
before the insert loop runs. -/
def phaseAssoc (idT tweet : PyVal) (db : DB) : Except (PyErr × DB) DB :=
  match extractUrls tweet with
  | .error e => .error (e, db)
  | .ok urlsV =>
  match pyIter urlsV with
  | .error e => .error (e, db)
  | .ok urlsL =>
  match urlsLoop idT db urlsL with
  | .error ep => .error ep
  | .ok db5 =>
  match extractMentions tweet with
  | .error e => .error (e, db5)
  | .ok mV =>
  match pyIter mV with
  | .error e => .error (e, db5)
  | .ok mL =>
  match mentionsLoop idT db5 mL with
  | .error ep => .error ep
  | .ok db6 =>
  match extractTags2 tweet with
  | .error e => .error (e, db6)
  | .ok hc =>
  match pyIter hc.1 with
  | .error e => .error (e, db6)
  | .ok hsL =>
  match buildTags "#" hsL with
  | .error e => .error (e, db6)
  | .ok tagsH =>
  match pyIter hc.2 with
  | .error e => .error (e, db6)
  | .ok csL =>
  match buildTags "$" csL with
  | .error e => .error (e, db6)
  | .ok tagsC =>
  match tagsLoop idT db6 (tagsH ++ tagsC) with
  | .error ep => .error ep
  | .ok db7 =>
  match extractMedia tweet with
  | .error e => .error (e, db7)
  | .ok mdV =>
  match pyIter mdV with
  | .error e => .error (e, db7)
  | .ok mdL => mediaLoop idT db7 mdL

/-- The statement sequence of `insert_tweet` (lines 57-357), threading the
uncommitted connection state.  An error carries the Python exception and
the uncommitted state at the point of failure (which the transaction wrapper
then discards). -/
def insertTweetRun (db : DB) (tweet : PyVal) : Except (PyErr × DB) (DB × Outcome) :=
  match getItem tweet "id" with
  | .error e => .error (e, db)
  | .ok idv =>
  if tweetExists db (pyStr idv) then .ok (db, .skippedAlreadyPresent) else
  match getItem tweet "user" with
  | .error e => .error (e, db)
  | .ok user =>
  match phaseUser tweet user db with
  | .error ep => .error ep
  | .ok dbU =>
  match extractedOf tweet with
  | .error e => .error (e, dbU)
  | .ok ex =>
  match tweetRowOf tweet user ex.1 ex.2.1 ex.2.2.1 ex.2.2.2.1 with
  | .error e => .error (e, replyStub ex.2.2.2.2 dbU)
  | .ok trow =>
  match phaseAssoc idv tweet
      (insertTweetRowDB (replyStub ex.2.2.2.2 dbU) trow) with
  | .error ep => .error ep
  | .ok db8 => .ok (db8, .inserted)

/-- `insert_tweet` under `with connection.begin()`: the caller observes the
exception, never the uncommitted state. -/
def insert_tweet (db : DB) (tweet : PyVal) : Except PyErr (DB × Outcome) :=
  match insertTweetRun db tweet with
  | .ok r => .ok r
  | .error ep => .error ep.1

/-- The committed store after one `insert_tweet` call: on success the new
state, on any exception the transaction is rolled back and the store is
unchanged. -/
def ingestDB (db : DB) (tweet : PyVal) : DB :=
  match insertTweetRun db tweet with
  | .ok (db2, _) => db2
  | .error _ => db

/-! ## Concrete records used to evaluate the embedding -/

/-- A minimal well-formed record: null geography value, empty place
sub-document, base text and empty entity lists. -/
def recOK : PyVal := .dict [
  ("id", .int 1),
  ("user", .dict [("id", .int 2), ("url", .none), ("geo_enabled", .bool false)]),
  ("geo", .none),
  ("place", .dict []),
  ("text", .str "hello"),
  ("entities", .dict [("urls", .list []), ("user_mentions", .list []),
    ("hashtags", .list []), ("symbols", .list [])])]

/-- A record whose `geo` and `place` values are both null: the bounding-box
fallback subscripts null and raises an uncaught TypeError after the author
row has already been written. -/
def recBad : PyVal := .dict [
  ("id", .int 9),
  ("user", .dict [("id", .int 8), ("url", .none)]),
  ("geo", .none),
  ("place", .none),
  ("text", .str "hi"),
  ("entities", .dict [("urls", .list []), ("user_mentions", .list []),
    ("hashtags", .list []), ("symbols", .list [])])]

/-- The uncommitted state at which ingesting `recBad` fails: the author row
was already inserted. -/
def pBad : DB := { emptyDB with users := [stubRow "8"] }

/-- The author sub-document of `rec3`: both identity fields present. -/
def rec3User : PyVal := .dict [("id", .int 12), ("url", .none)]

/-- Both identity fields present, yet ingestion fails: `geo` and `place`
are null. -/
def rec3 : PyVal := .dict [
  ("id", .int 11),
  ("user", rec3User),
  ("geo", .none),
  ("place", .none)]

/-- A record carrying a NUL character in a top-level `screen_name` field,
which the hydration insert binds without sanitization. -/
def rec4 : PyVal := .dict [
  ("id", .int 4),
  ("screen_name", .str "a\x00b"),
  ("user", .dict [("id", .int 5), ("url", .none), ("geo_enabled", .bool false)]),
  ("geo", .none),
  ("place", .dict []),
  ("text", .str "x"),
  ("entities", .dict [("urls", .list []), ("user_mentions", .list []),
    ("hashtags", .list []), ("symbols", .list [])])]

/-- An author sub-document that carries a screen name. -/
def rec5User : PyVal := .dict [
  ("id", .int 22), ("url", .none),
  ("screen_name", .str "alice"), ("geo_enabled", .bool false)]

/-- A record whose author sub-document carries `screen_name` but whose top
level does not. -/
def rec5 : PyVal := .dict [
  ("id", .int 21),
  ("user", rec5User),
  ("geo", .none),
  ("place", .dict []),
  ("text", .str "x"),
  ("entities", .dict [("urls", .list []), ("user_mentions", .list []),
    ("hashtags", .list []), ("symbols", .list [])])]

/-- A record with one url entity. -/
def rec6 : PyVal := .dict [
  ("id", .int 6),
  ("user", .dict [("id", .int 7), ("url", .none), ("geo_enabled", .bool false)]),
  ("geo", .none),
  ("place", .dict []),
  ("text", .str "x"),
  ("entities", .dict [
    ("urls", .list [.dict [("expanded_url", .str "http://e")]]),
    ("user_mentions", .list []), ("hashtags", .list []), ("symbols", .list [])])]

/-- A record with point coordinates, a profile url, one mention, one
hashtag and one cashtag. -/
def recGeo : PyVal := .dict [
  ("id", .int 3),
  ("user", .dict [("id", .int 2), ("url", .str "http://u"),
    ("geo_enabled", .bool true)]),
  ("geo", .dict [("coordinates", .list [.int 10, .int 20])]),
  ("place", .none),
  ("text", .str "geo"),
  ("entities", .dict [
    ("urls", .list []),
    ("user_mentions", .list [.dict [("id", .int 77)]]),
    ("hashtags", .list [.dict [("text", .str "foo")]]),
    ("symbols", .list [.dict [("text", .str "BAR")]])])]

/-- A store already holding a stub row for author "2". -/
def dbStub : DB := { emptyDB with users := [stubRow "2"] }

/-! ## Invariant layer -/

/-- Whatever `remove_nulls` returns successfully is NULL or NUL-free. -/
theorem remove_nulls_sanOK (v w : PyVal) (h : remove_nulls v = .ok w) :
    sanOK w = true := by
  cases v with
  | none =>
      simp only [remove_nulls, Except.ok.injEq] at h
      subst h; rfl
  | str s =>
      simp only [remove_nulls, Except.ok.injEq] at h
      subst h
      simp only [sanOK, removeNullsStr, List.all_eq_true]
      intro c hc
      exact (List.mem_filter.mp hc).2
  | bool b => exact (Except.noConfusion h)
  | int n => exact (Except.noConfusion h)
  | list xs => exact (Except.noConfusion h)
  | dict kvs => exact (Except.noConfusion h)

/-- `get_id_urls` only touches the `urls` table and its serial counter. -/
theorem get_id_urls_frame (url : PyVal) (db : DB) :
    ((get_id_urls url db).1).users = db.users ∧
    ((get_id_urls url db).1).tweets = db.tweets ∧
    ((get_id_urls url db).1).tweet_urls = db.tweet_urls ∧
    ((get_id_urls url db).1).tweet_mentions = db.tweet_mentions ∧
    ((get_id_urls url db).1).tweet_tags = db.tweet_tags ∧
    ((get_id_urls url db).1).tweet_media = db.tweet_media := by
  unfold get_id_urls
  split <;> exact ⟨rfl, rfl, rfl, rfl, rfl, rfl⟩

/-- `insertUser` only touches the `users` table. -/
theorem insertUser_frame (db : DB) (row : UserRow) :
    (insertUser db row).urls = db.urls ∧
    (insertUser db row).tweets = db.tweets ∧
    (insertUser db row).tweet_urls = db.tweet_urls ∧
    (insertUser db row).tweet_mentions = db.tweet_mentions ∧
    (insertUser db row).tweet_tags = db.tweet_tags ∧
    (insertUser db row).tweet_media = db.tweet_media := by
  unfold insertUser
  split <;> exact ⟨rfl, rfl, rfl, rfl, rfl, rfl⟩

/-- A `users` row present before an `insertUser` is still found, unchanged,
afterwards: the conflict-ignore insert never overwrites. -/
theorem insertUser_lookup (db : DB) (row : UserRow) (k : String) (r : UserRow)
    (h : lookupUser db k = some r) :
    lookupUser (insertUser db row) k = some r := by
  unfold insertUser
  split
  · exact h
  · unfold lookupUser at h ⊢
    simp only [List.find?_append, h, Option.or_some]

/-- `resolveUserUrl` only touches the `urls` table. -/
theorem resolveUserUrl_frame (uurl : PyVal) (db : DB) :
    ((resolveUserUrl uurl db).1).users = db.users ∧
    ((resolveUserUrl uurl db).1).tweets = db.tweets ∧
    ((resolveUserUrl uurl db).1).tweet_urls = db.tweet_urls ∧
    ((resolveUserUrl uurl db).1).tweet_mentions = db.tweet_mentions ∧
    ((resolveUserUrl uurl db).1).tweet_tags = db.tweet_tags ∧
    ((resolveUserUrl uurl db).1).tweet_media = db.tweet_media := by
  unfold resolveUserUrl
  split
  · exact ⟨rfl, rfl, rfl, rfl, rfl, rfl⟩
  · exact get_id_urls_frame _ _

/-- `replyStub` only (possibly) appends to `users`. -/
theorem replyStub_frame (rep : PyVal) (db : DB) :
    (replyStub rep db).urls = db.urls ∧
    (replyStub rep db).tweets = db.tweets ∧
    (replyStub rep db).tweet_urls = db.tweet_urls ∧
    (replyStub rep db).tweet_mentions = db.tweet_mentions ∧
    (replyStub rep db).tweet_tags = db.tweet_tags ∧
    (replyStub rep db).tweet_media = db.tweet_media := by
  unfold replyStub
  split
  · exact ⟨rfl, rfl, rfl, rfl, rfl, rfl⟩
  · exact insertUser_frame _ _

/-- Existing `users` rows survive `replyStub` unchanged. -/
theorem replyStub_lookup (rep : PyVal) (db : DB) (k : String) (r : UserRow)
    (h : lookupUser db k = some r) :
    lookupUser (replyStub rep db) k = some r := by
  unfold replyStub
  split
  · exact h
  · exact insertUser_lookup _ _ _ _ h

/-- `insertTweetRowDB` only touches the `tweets` table. -/
theorem insertTweetRowDB_frame (db : DB) (row : TweetRow) :
    (insertTweetRowDB db row).urls = db.urls ∧
    (insertTweetRowDB db row).users = db.users ∧
    (insertTweetRowDB db row).tweet_urls = db.tweet_urls ∧
    (insertTweetRowDB db row).tweet_mentions = db.tweet_mentions ∧
    (insertTweetRowDB db row).tweet_tags = db.tweet_tags ∧
    (insertTweetRowDB db row).tweet_media = db.tweet_media := by
  unfold insertTweetRowDB
  split <;> exact ⟨rfl, rfl, rfl, rfl, rfl, rfl⟩

/-- When no row with the key exists, `insertTweetRowDB` appends the row. -/
theorem insertTweetRowDB_insert (db : DB) (row : TweetRow)
    (h : tweetExists db row.id_tweets = false) :
    (insertTweetRowDB db row).tweets = db.tweets ++ [row] := by
  unfold insertTweetRowDB
  split
  · next hc =>
      unfold tweetExists at h
      rw [h] at hc
      exact absurd hc (by simp)
  · rfl

/-- `insertTweetUrl` only touches `tweet_urls`, and adds at most a row whose
`id_tweets` is the given parameter. -/
theorem insertTweetUrl_frame (db : DB) (idT : PyVal) (idU : Nat) :
    (insertTweetUrl db idT idU).urls = db.urls ∧
    (insertTweetUrl db idT idU).users = db.users ∧
    (insertTweetUrl db idT idU).tweets = db.tweets ∧
    (insertTweetUrl db idT idU).tweet_mentions = db.tweet_mentions ∧
    (insertTweetUrl db idT idU).tweet_tags = db.tweet_tags ∧
    (insertTweetUrl db idT idU).tweet_media = db.tweet_media := by
  unfold insertTweetUrl
  split <;> exact ⟨rfl, rfl, rfl, rfl, rfl, rfl⟩

/-- Membership characterization for `insertTweetUrl`. -/
theorem insertTweetUrl_mem (db : DB) (idT : PyVal) (idU : Nat)
    (r : TweetUrlRow) (h : r ∈ (insertTweetUrl db idT idU).tweet_urls) :
    r ∈ db.tweet_urls ∨ r.id_tweets = idT := by
  unfold insertTweetUrl at h
  split at h
  · exact Or.inl h
  · simp only [List.mem_append, List.mem_singleton] at h
    cases h with
    | inl hm => exact Or.inl hm
    | inr he => subst he; exact Or.inr rfl

/-- `insertTweetMention` only touches `tweet_mentions`. -/
theorem insertTweetMention_frame (db : DB) (idT mid : PyVal) :
    (insertTweetMention db idT mid).urls = db.urls ∧
    (insertTweetMention db idT mid).users = db.users ∧
    (insertTweetMention db idT mid).tweets = db.tweets ∧
    (insertTweetMention db idT mid).tweet_urls = db.tweet_urls ∧
    (insertTweetMention db idT mid).tweet_tags = db.tweet_tags ∧
    (insertTweetMention db idT mid).tweet_media = db.tweet_media := by
  unfold insertTweetMention
  split <;> exact ⟨rfl, rfl, rfl, rfl, rfl, rfl⟩

/-- Membership characterization for `insertTweetMention`. -/
theorem insertTweetMention_mem (db : DB) (idT mid : PyVal)
    (r : TweetMentionRow) (h : r ∈ (insertTweetMention db idT mid).tweet_mentions) :
    r ∈ db.tweet_mentions ∨ r.id_tweets = idT := by
  unfold insertTweetMention at h
  split at h
  · exact Or.inl h
  · simp only [List.mem_append, List.mem_singleton] at h
    cases h with
    | inl hm => exact Or.inl hm
    | inr he => subst he; exact Or.inr rfl

/-- `insertTweetTag` only touches `tweet_tags`. -/
theorem insertTweetTag_frame (db : DB) (idT tag : PyVal) :
    (insertTweetTag db idT tag).urls = db.urls ∧
    (insertTweetTag db idT tag).users = db.users ∧
    (insertTweetTag db idT tag).tweets = db.tweets ∧
    (insertTweetTag db idT tag).tweet_urls = db.tweet_urls ∧
    (insertTweetTag db idT tag).tweet_mentions = db.tweet_mentions ∧
    (insertTweetTag db idT tag).tweet_media = db.tweet_media := by
  unfold insertTweetTag
  split <;> exact ⟨rfl, rfl, rfl, rfl, rfl, rfl⟩

/-- Membership characterization for `insertTweetTag`. -/
theorem insertTweetTag_mem (db : DB) (idT tag : PyVal)
    (r : TweetTagRow) (h : r ∈ (insertTweetTag db idT tag).tweet_tags) :
    r ∈ db.tweet_tags ∨ (r.id_tweets = idT ∧ r.tag = tag) := by
  unfold insertTweetTag at h
  split at h
  · exact Or.inl h
  · simp only [List.mem_append, List.mem_singleton] at h
    cases h with
    | inl hm => exact Or.inl hm
    | inr he => subst he; exact Or.inr ⟨rfl, rfl⟩

/-- `insertTweetMedia` only touches `tweet_media`. -/
theorem insertTweetMedia_frame (db : DB) (idT : PyVal) (idU : Nat) (ty : PyVal) :
    (insertTweetMedia db idT idU ty).urls = db.urls ∧
    (insertTweetMedia db idT idU ty).users = db.users ∧
    (insertTweetMedia db idT idU ty).tweets = db.tweets ∧
    (insertTweetMedia db idT idU ty).tweet_urls = db.tweet_urls ∧
    (insertTweetMedia db idT idU ty).tweet_mentions = db.tweet_mentions ∧
    (insertTweetMedia db idT idU ty).tweet_tags = db.tweet_tags := by
  unfold insertTweetMedia
  split <;> exact ⟨rfl, rfl, rfl, rfl, rfl, rfl⟩

/-- Membership characterization for `insertTweetMedia`. -/
theorem insertTweetMedia_mem (db : DB) (idT : PyVal) (idU : Nat) (ty : PyVal)
    (r : TweetMediaRow) (h : r ∈ (insertTweetMedia db idT idU ty).tweet_media) :
    r ∈ db.tweet_media ∨ (r.id_tweets = idT ∧ r.type = ty) := by
  unfold insertTweetMedia at h
  split at h
  · exact Or.inl h
  · simp only [List.mem_append, List.mem_singleton] at h
    cases h with
    | inl hm => exact Or.inl hm
    | inr he => subst he; exact Or.inr ⟨rfl, rfl⟩

/-- What a successful url-association loop does to the store: every table
except `urls`/`tweet_urls` is untouched, and every new `tweet_urls` row
carries the loop's `id_tweets` parameter. -/
theorem urlsLoop_ok (idT : PyVal) :
    ∀ (l : List PyVal) (db db' : DB), urlsLoop idT db l = .ok db' →
      db'.users = db.users ∧ db'.tweets = db.tweets ∧
      db'.tweet_mentions = db.tweet_mentions ∧
      db'.tweet_tags = db.tweet_tags ∧ db'.tweet_media = db.tweet_media ∧
      (∀ r ∈ db'.tweet_urls, r ∈ db.tweet_urls ∨ r.id_tweets = idT)
  | [], db, db', h => by
      unfold urlsLoop at h
      injection h with h
      subst h
      exact ⟨rfl, rfl, rfl, rfl, rfl, fun r hr => Or.inl hr⟩
  | u :: rest, db, db', h => by
      unfold urlsLoop at h
      split at h
      · exact (Except.noConfusion h)
      · next url hurl =>
        rcases hg : get_id_urls url db with ⟨db2, idu⟩
        rw [hg] at h
        have ih := urlsLoop_ok idT rest _ db' h
        have hf := insertTweetUrl_frame db2 idT idu
        have hg2 := get_id_urls_frame url db
        rw [hg] at hg2
        refine ⟨?_, ?_, ?_, ?_, ?_, ?_⟩
        · rw [ih.1, hf.2.1, hg2.1]
        · rw [ih.2.1, hf.2.2.1, hg2.2.1]
        · rw [ih.2.2.1, hf.2.2.2.1, hg2.2.2.2.1]
        · rw [ih.2.2.2.1, hf.2.2.2.2.1, hg2.2.2.2.2.1]
        · rw [ih.2.2.2.2.1, hf.2.2.2.2.2, hg2.2.2.2.2.2]
        · intro r hr
          cases ih.2.2.2.2.2 r hr with
          | inr he => exact Or.inr he
          | inl hm =>
              cases insertTweetUrl_mem db2 idT idu r hm with
              | inr he => exact Or.inr he
              | inl hm2 => rw [hg2.2.2.1] at hm2; exact Or.inl hm2

/-- What a successful mention loop does: tables other than `users` and
`tweet_mentions` are untouched, existing user rows survive unchanged, and
every new mention row carries the loop's `id_tweets` parameter. -/
theorem mentionsLoop_ok (idT : PyVal) :
    ∀ (l : List PyVal) (db db' : DB), mentionsLoop idT db l = .ok db' →
      db'.urls = db.urls ∧ db'.tweets = db.tweets ∧
      db'.tweet_urls = db.tweet_urls ∧
      db'.tweet_tags = db.tweet_tags ∧ db'.tweet_media = db.tweet_media ∧
      (∀ k r, lookupUser db k = some r → lookupUser db' k = some r) ∧
      (∀ r ∈ db'.tweet_mentions, r ∈ db.tweet_mentions ∨ r.id_tweets = idT)
  | [], db, db', h => by
      unfold mentionsLoop at h
      injection h with h
      subst h
      exact ⟨rfl, rfl, rfl, rfl, rfl, fun _ _ hk => hk, fun r hr => Or.inl hr⟩
  | m :: rest, db, db', h => by
      unfold mentionsLoop at h
      split at h
      · exact (Except.noConfusion h)
      · next mid hmid =>
        have ih := mentionsLoop_ok idT rest _ db' h
        have hfU := insertUser_frame db (stubRow (pyStr mid))
        have hfM := insertTweetMention_frame (insertUser db (stubRow (pyStr mid))) idT mid
        refine ⟨?_, ?_, ?_, ?_, ?_, ?_, ?_⟩
        · rw [ih.1, hfM.1, hfU.1]
        · rw [ih.2.1, hfM.2.2.1, hfU.2.1]
        · rw [ih.2.2.1, hfM.2.2.2.1, hfU.2.2.1]
        · rw [ih.2.2.2.1, hfM.2.2.2.2.1, hfU.2.2.2.2.1]
        · rw [ih.2.2.2.2.1, hfM.2.2.2.2.2, hfU.2.2.2.2.2]
        · intro k r hk
          apply ih.2.2.2.2.2.1
          unfold lookupUser
          have : (insertTweetMention (insertUser db (stubRow (pyStr mid))) idT mid).users
              = (insertUser db (stubRow (pyStr mid))).users := hfM.2.1
          rw [this]
          exact insertUser_lookup db (stubRow (pyStr mid)) k r hk
        · intro r hr
          cases ih.2.2.2.2.2.2 r hr with
          | inr he => exact Or.inr he
          | inl hm2 =>
              cases insertTweetMention_mem _ idT mid r hm2 with
              | inr he => exact Or.inr he
              | inl hm3 =>
                  rw [hfU.2.2.2.1] at hm3
                  exact Or.inl hm3

/-- What a successful tag loop does: only `tweet_tags` changes, and every
new row carries the loop's `id_tweets` and a sanitized tag. -/
theorem tagsLoop_ok (idT : PyVal) :
    ∀ (l : List PyVal) (db db' : DB), tagsLoop idT db l = .ok db' →
      db'.urls = db.urls ∧ db'.users = db.users ∧ db'.tweets = db.tweets ∧
      db'.tweet_urls = db.tweet_urls ∧
      db'.tweet_mentions = db.tweet_mentions ∧
      db'.tweet_media = db.tweet_media ∧
      (∀ r ∈ db'.tweet_tags, r ∈ db.tweet_tags ∨
        (r.id_tweets = idT ∧ sanOK r.tag = true))
  | [], db, db', h => by
      unfold tagsLoop at h
      injection h with h
      subst h
      exact ⟨rfl, rfl, rfl, rfl, rfl, rfl, fun r hr => Or.inl hr⟩
  | tag :: rest, db, db', h => by
      unfold tagsLoop at h
      split at h
      · exact (Except.noConfusion h)
      · next tagS htag =>
        have ih := tagsLoop_ok idT rest _ db' h
        have hf := insertTweetTag_frame db idT tagS
        refine ⟨?_, ?_, ?_, ?_, ?_, ?_, ?_⟩
        · rw [ih.1, hf.1]
        · rw [ih.2.1, hf.2.1]
        · rw [ih.2.2.1, hf.2.2.1]
        · rw [ih.2.2.2.1, hf.2.2.2.1]
        · rw [ih.2.2.2.2.1, hf.2.2.2.2.1]
        · rw [ih.2.2.2.2.2.1, hf.2.2.2.2.2]
        · intro r hr
          cases ih.2.2.2.2.2.2 r hr with
          | inr he => exact Or.inr he
          | inl hm =>
              cases insertTweetTag_mem db idT tagS r hm with
              | inl hm2 => exact Or.inl hm2
              | inr he =>
                  refine Or.inr ⟨he.1, ?_⟩
                  rw [he.2]
                  exact remove_nulls_sanOK tag tagS htag

/-- What a successful media loop does: only `urls` and `tweet_media`
change, and every new media row carries the loop's `id_tweets` and a
sanitized type label. -/
theorem mediaLoop_ok (idT : PyVal) :
    ∀ (l : List PyVal) (db db' : DB), mediaLoop idT db l = .ok db' →
      db'.users = db.users ∧ db'.tweets = db.tweets ∧
      db'.tweet_urls = db.tweet_urls ∧
      db'.tweet_mentions = db.tweet_mentions ∧
      db'.tweet_tags = db.tweet_tags ∧
      (∀ r ∈ db'.tweet_media, r ∈ db.tweet_media ∨
        (r.id_tweets = idT ∧ sanOK r.type = true))
  | [], db, db', h => by
      unfold mediaLoop at h
      injection h with h
      subst h
      exact ⟨rfl, rfl, rfl, rfl, rfl, fun r hr => Or.inl hr⟩
  | m :: rest, db, db', h => by
      unfold mediaLoop at h
      cases hmurl : getItem m "media_url" with
      | error e =>
          simp only [hmurl] at h
          exact (Except.noConfusion h)
      | ok murl =>
        simp only [hmurl] at h
        rcases hg : get_id_urls murl db with ⟨db2, idu⟩
        simp only [hg] at h
        cases hty : (do
            let ty ← getItem m "type"
            remove_nulls ty : Except PyErr PyVal) with
        | error e =>
            simp only [hty] at h
            exact (Except.noConfusion h)
        | ok tyS =>
          simp only [hty] at h
          have ih := mediaLoop_ok idT rest _ db' h
          have hf := insertTweetMedia_frame db2 idT idu tyS
          have hg2 := get_id_urls_frame murl db
          rw [hg] at hg2
          have htyS : ∃ ty0, remove_nulls ty0 = .ok tyS := by
            cases hty0 : getItem m "type" with
            | error e =>
                rw [hty0] at hty
                simp only [bind, Except.bind] at hty
                exact (Except.noConfusion hty)
            | ok ty0 =>
                rw [hty0] at hty
                simp only [bind, Except.bind] at hty
                exact ⟨ty0, hty⟩
          refine ⟨?_, ?_, ?_, ?_, ?_, ?_⟩
          · rw [ih.1, hf.2.1, hg2.1]
          · rw [ih.2.1, hf.2.2.1, hg2.2.1]
          · rw [ih.2.2.1, hf.2.2.2.1, hg2.2.2.1]
          · rw [ih.2.2.2.1, hf.2.2.2.2.1, hg2.2.2.2.1]
          · rw [ih.2.2.2.2.1, hf.2.2.2.2.2, hg2.2.2.2.2.1]
          · intro r hr
            cases ih.2.2.2.2.2 r hr with
            | inr he => exact Or.inr he
            | inl hm2 =>
                cases insertTweetMedia_mem db2 idT idu tyS r hm2 with
                | inl hm3 => rw [hg2.2.2.2.2.2] at hm3; exact Or.inl hm3
                | inr he =>
                    obtain ⟨ty0, hty0⟩ := htyS
                    refine Or.inr ⟨he.1, ?_⟩
                    rw [he.2]
                    exact remove_nulls_sanOK ty0 tyS hty0

/-- `lookupUser` only depends on the `users` table. -/
theorem lookupUser_congr (d1 d2 : DB) (k : String) (h : d1.users = d2.users) :
    lookupUser d1 k = lookupUser d2 k := by
  unfold lookupUser
  rw [h]

/-- What a successful step 2 (author hydration) does: only `urls` and
`users` can change, and existing user rows survive unchanged. -/
theorem phaseUser_ok (tweet user : PyVal) (db db' : DB)
    (h : phaseUser tweet user db = .ok db') :
    db'.tweets = db.tweets ∧ db'.tweet_urls = db.tweet_urls ∧
    db'.tweet_mentions = db.tweet_mentions ∧
    db'.tweet_tags = db.tweet_tags ∧ db'.tweet_media = db.tweet_media ∧
    (∀ k r, lookupUser db k = some r → lookupUser db' k = some r) := by
  unfold phaseUser at h
  cases huu : getItem user "url" with
  | error e =>
      simp only [huu] at h
      exact (Except.noConfusion h)
  | ok uurl =>
      simp only [huu] at h
      rcases hru : resolveUserUrl uurl db with ⟨db2, uid⟩
      simp only [hru] at h
      cases hur : userRowOf tweet user uid with
      | error e =>
          simp only [hur] at h
          exact (Except.noConfusion h)
      | ok urow =>
          simp only [hur] at h
          injection h with h
          subst h
          have hrf := resolveUserUrl_frame uurl db
          rw [hru] at hrf
          have huf := insertUser_frame db2 urow
          refine ⟨?_, ?_, ?_, ?_, ?_, ?_⟩
          · rw [huf.2.1, hrf.2.1]
          · rw [huf.2.2.1, hrf.2.2.1]
          · rw [huf.2.2.2.1, hrf.2.2.2.1]
          · rw [huf.2.2.2.2.1, hrf.2.2.2.2.1]
          · rw [huf.2.2.2.2.2, hrf.2.2.2.2.2]
          · intro k r hk
            apply insertUser_lookup
            rw [lookupUser_congr db2 db k hrf.1]
            exact hk

/-- What a successful association phase (steps 5-8) does: `tweets` is
untouched, existing user rows survive, and every new association row
carries the record's raw `tweet['id']` parameter (tags and media types
sanitized). -/
theorem phaseAssoc_ok (idT tweet : PyVal) (db db' : DB)
    (h : phaseAssoc idT tweet db = .ok db') :
    db'.tweets = db.tweets ∧
    (∀ k r, lookupUser db k = some r → lookupUser db' k = some r) ∧
    (∀ r ∈ db'.tweet_urls, r ∈ db.tweet_urls ∨ r.id_tweets = idT) ∧
    (∀ r ∈ db'.tweet_mentions, r ∈ db.tweet_mentions ∨ r.id_tweets = idT) ∧
    (∀ r ∈ db'.tweet_tags, r ∈ db.tweet_tags ∨
      (r.id_tweets = idT ∧ sanOK r.tag = true)) ∧
    (∀ r ∈ db'.tweet_media, r ∈ db.tweet_media ∨
      (r.id_tweets = idT ∧ sanOK r.type = true)) := by
  unfold phaseAssoc at h
  cases h1 : extractUrls tweet with
  | error e => simp only [h1] at h; exact (Except.noConfusion h)
  | ok urlsV =>
  simp only [h1] at h
  cases h2 : pyIter urlsV with
  | error e => simp only [h2] at h; exact (Except.noConfusion h)
  | ok urlsL =>
  simp only [h2] at h
  cases h3 : urlsLoop idT db urlsL with
  | error ep => simp only [h3] at h; exact (Except.noConfusion h)
  | ok d5 =>
  simp only [h3] at h
  cases h4 : extractMentions tweet with
  | error e => simp only [h4] at h; exact (Except.noConfusion h)
  | ok mV =>
  simp only [h4] at h
  cases h5 : pyIter mV with
  | error e => simp only [h5] at h; exact (Except.noConfusion h)
  | ok mL =>
  simp only [h5] at h
  cases h6 : mentionsLoop idT d5 mL with
  | error ep => simp only [h6] at h; exact (Except.noConfusion h)
  | ok d6 =>
  simp only [h6] at h
  cases h7 : extractTags2 tweet with
  | error e => simp only [h7] at h; exact (Except.noConfusion h)
  | ok hc =>
  simp only [h7] at h
  cases h8 : pyIter hc.1 with
  | error e => simp only [h8] at h; exact (Except.noConfusion h)
  | ok hsL =>
  simp only [h8] at h
  cases h9 : buildTags "#" hsL with
  | error e => simp only [h9] at h; exact (Except.noConfusion h)
  | ok tagsH =>
  simp only [h9] at h
  cases h10 : pyIter hc.2 with
  | error e => simp only [h10] at h; exact (Except.noConfusion h)
  | ok csL =>
  simp only [h10] at h
  cases h11 : buildTags "$" csL with
  | error e => simp only [h11] at h; exact (Except.noConfusion h)
  | ok tagsC =>
  simp only [h11] at h
  cases h12 : tagsLoop idT d6 (tagsH ++ tagsC) with
  | error ep => simp only [h12] at h; exact (Except.noConfusion h)
  | ok d7 =>
  simp only [h12] at h
  cases h13 : extractMedia tweet with
  | error e => simp only [h13] at h; exact (Except.noConfusion h)
  | ok mdV =>
  simp only [h13] at h
  cases h14 : pyIter mdV with
  | error e => simp only [h14] at h; exact (Except.noConfusion h)
  | ok mdL =>
  simp only [h14] at h
  have hu := urlsLoop_ok idT urlsL db d5 h3
  have hm := mentionsLoop_ok idT mL d5 d6 h6
  have ht := tagsLoop_ok idT (tagsH ++ tagsC) d6 d7 h12
  have hd := mediaLoop_ok idT mdL d7 db' h
  refine ⟨?_, ?_, ?_, ?_, ?_, ?_⟩
  · rw [hd.2.1, ht.2.2.1, hm.2.1, hu.2.1]
  · intro k r hk
    have k5 : lookupUser d5 k = some r := by
      rw [lookupUser_congr d5 db k hu.1]; exact hk
    have k6 : lookupUser d6 k = some r := hm.2.2.2.2.2.1 k r k5
    have k7 : lookupUser d7 k = some r := by
      rw [lookupUser_congr d7 d6 k ht.2.1]; exact k6
    rw [lookupUser_congr db' d7 k hd.1]; exact k7
  · intro r hr
    rw [hd.2.2.1, ht.2.2.2.1, hm.2.2.1] at hr
    exact hu.2.2.2.2.2 r hr
  · intro r hr
    rw [hd.2.2.2.1, ht.2.2.2.2.1] at hr
    cases hm.2.2.2.2.2.2 r hr with
    | inr he => exact Or.inr he
    | inl hm2 => rw [hu.2.2.1] at hm2; exact Or.inl hm2
  · intro r hr
    rw [hd.2.2.2.2.1] at hr
    cases ht.2.2.2.2.2.2 r hr with
    | inr he => exact Or.inr he
    | inl hm2 =>
        rw [hm.2.2.2.1, hu.2.2.2.1] at hm2
        exact Or.inl hm2
  · intro r hr
    cases hd.2.2.2.2.2 r hr with
    | inr he => exact Or.inr he
    | inl hm2 =>
        rw [ht.2.2.2.2.2.1, hm.2.2.2.2.1, hu.2.2.2.2.1] at hm2
        exact Or.inl hm2

/-- What a successfully built `tweets` parameter row looks like: the two key
identifiers are bound as strings (`str(...)`), the reply-target author id is
NULL or a string, `geo` is bound as NULL, and the six free-text columns went
through `remove_nulls`. -/
theorem tweetRowOf_spec (tweet user text cc sc pn : PyVal) (row : TweetRow)
    (h : tweetRowOf tweet user text cc sc pn = .ok row) :
    (∃ idT, getItem tweet "id" = .ok idT ∧ row.id_tweets = pyStr idT) ∧
    (∃ idU, getItem user "id" = .ok idU ∧ row.id_users = PyVal.str (pyStr idU)) ∧
    (row.in_reply_to_user_id = PyVal.none ∨
      ∃ s, row.in_reply_to_user_id = PyVal.str s) ∧
    row.geo = PyVal.none ∧
    sanOK row.source = true ∧ sanOK row.text = true ∧
    sanOK row.country_code = true ∧ sanOK row.state_code = true ∧
    sanOK row.lang = true ∧ sanOK row.place_name = true := by
  unfold tweetRowOf at h
  cases h1 : getItem tweet "id" with
  | error e => simp only [h1] at h; exact (Except.noConfusion h)
  | ok idT =>
  simp only [h1] at h
  cases h2 : getItem user "id" with
  | error e => simp only [h2] at h; exact (Except.noConfusion h)
  | ok idU =>
  simp only [h2] at h
  cases h3 : pyGet tweet "created_at" with
  | error e => simp only [h3] at h; exact (Except.noConfusion h)
  | ok created_at =>
  simp only [h3] at h
  cases h4 : pyGet tweet "in_reply_to_status_id" with
  | error e => simp only [h4] at h; exact (Except.noConfusion h)
  | ok inReplyStatus =>
  simp only [h4] at h
  cases h5 : pyGet tweet "in_reply_to_user_id" with
  | error e => simp only [h5] at h; exact (Except.noConfusion h)
  | ok inReplyUser =>
  simp only [h5] at h
  cases h6 : pyGet tweet "quoted_status_id" with
  | error e => simp only [h6] at h; exact (Except.noConfusion h)
  | ok quoted =>
  simp only [h6] at h
  cases h7 : pyGet tweet "retweet_count" with
  | error e => simp only [h7] at h; exact (Except.noConfusion h)
  | ok rtc =>
  simp only [h7] at h
  cases h8 : pyGet tweet "favorite_count" with
  | error e => simp only [h8] at h; exact (Except.noConfusion h)
  | ok fvc =>
  simp only [h8] at h
  cases h9 : pyGet tweet "quote_count" with
  | error e => simp only [h9] at h; exact (Except.noConfusion h)
  | ok qc =>
  simp only [h9] at h
  cases h10 : pyGet tweet "withheld_copyright" with
  | error e => simp only [h10] at h; exact (Except.noConfusion h)
  | ok wcp =>
  simp only [h10] at h
  cases h11 : pyGet tweet "withheld_in_countries" with
  | error e => simp only [h11] at h; exact (Except.noConfusion h)
  | ok wic =>
  simp only [h11] at h
  cases h12 : pyGet tweet "source" with
  | error e => simp only [h12] at h; exact (Except.noConfusion h)
  | ok src =>
  simp only [h12] at h
  cases h13 : remove_nulls src with
  | error e => simp only [h13] at h; exact (Except.noConfusion h)
  | ok srcS =>
  simp only [h13] at h
  cases h14 : remove_nulls text with
  | error e => simp only [h14] at h; exact (Except.noConfusion h)
  | ok textS =>
  simp only [h14] at h
  cases h15 : remove_nulls cc with
  | error e => simp only [h15] at h; exact (Except.noConfusion h)
  | ok ccS =>
  simp only [h15] at h
  cases h16 : remove_nulls sc with
  | error e => simp only [h16] at h; exact (Except.noConfusion h)
  | ok scS =>
  simp only [h16] at h
  cases h17 : pyGet tweet "lang" with
  | error e => simp only [h17] at h; exact (Except.noConfusion h)
  | ok lang =>
  simp only [h17] at h
  cases h18 : remove_nulls lang with
  | error e => simp only [h18] at h; exact (Except.noConfusion h)
  | ok langS =>
  simp only [h18] at h
  cases h19 : remove_nulls pn with
  | error e => simp only [h19] at h; exact (Except.noConfusion h)
  | ok pnS =>
  simp only [h19] at h
  injection h with h
  subst h
  refine ⟨⟨idT, rfl, rfl⟩, ⟨idU, rfl, rfl⟩, ?_, rfl,
    remove_nulls_sanOK src srcS h13, remove_nulls_sanOK text textS h14,
    remove_nulls_sanOK cc ccS h15, remove_nulls_sanOK sc scS h16,
    remove_nulls_sanOK lang langS h18, remove_nulls_sanOK pn pnS h19⟩
  cases hb : pyTruthy inReplyUser
  · left
    simp only [hb, Bool.false_eq_true, if_false]
  · right
    exact ⟨pyStr inReplyUser, by simp only [hb, if_true]⟩

/-- Master characterization of a successful `insert_tweet` run: the record
identifier was read; existing user rows survive unchanged; afterwards a
`tweets` row with key `str(tweet['id'])` exists; and either the call
short-circuited (store untouched) or it appended exactly one `tweets` row
(string-bound identifiers, NULL geography, sanitized text columns) plus
association rows carrying the raw `tweet['id']` parameter. -/
theorem insertTweetRun_ok (db : DB) (t : PyVal) (db1 : DB) (o : Outcome)
    (h : insertTweetRun db t = .ok (db1, o)) :
    ∃ idv, getItem t "id" = .ok idv ∧
      (∀ k r, lookupUser db k = some r → lookupUser db1 k = some r) ∧
      tweetExists db1 (pyStr idv) = true ∧
      ((o = .skippedAlreadyPresent ∧ db1 = db) ∨
       (o = .inserted ∧ tweetExists db (pyStr idv) = false ∧
        (∃ row, db1.tweets = db.tweets ++ [row] ∧ row.id_tweets = pyStr idv ∧
          (∃ u idU, getItem t "user" = .ok u ∧ getItem u "id" = .ok idU ∧
            row.id_users = PyVal.str (pyStr idU)) ∧
          (row.in_reply_to_user_id = PyVal.none ∨
            ∃ s, row.in_reply_to_user_id = PyVal.str s) ∧
          row.geo = PyVal.none ∧
          sanOK row.source = true ∧ sanOK row.text = true ∧
          sanOK row.country_code = true ∧ sanOK row.state_code = true ∧
          sanOK row.lang = true ∧ sanOK row.place_name = true) ∧
        (∀ r ∈ db1.tweet_urls, r ∈ db.tweet_urls ∨ r.id_tweets = idv) ∧
        (∀ r ∈ db1.tweet_mentions, r ∈ db.tweet_mentions ∨ r.id_tweets = idv) ∧
        (∀ r ∈ db1.tweet_tags, r ∈ db.tweet_tags ∨
          (r.id_tweets = idv ∧ sanOK r.tag = true)) ∧
        (∀ r ∈ db1.tweet_media, r ∈ db.tweet_media ∨
          (r.id_tweets = idv ∧ sanOK r.type = true)))) := by
  unfold insertTweetRun at h
  cases hid : getItem t "id" with
  | error e => simp only [hid] at h; exact (Except.noConfusion h)
  | ok idv =>
  simp only [hid] at h
  refine ⟨idv, rfl, ?_⟩
  cases hex : tweetExists db (pyStr idv) with
  | true =>
      simp only [hex, if_true] at h
      obtain ⟨hdb, ho⟩ := Prod.mk.injEq .. ▸ (Except.ok.inj h)
      subst hdb
      refine ⟨fun k r hk => hk, hex, Or.inl ⟨ho.symm, rfl⟩⟩
  | false =>
      simp only [hex, Bool.false_eq_true, if_false] at h
      cases hu : getItem t "user" with
      | error e => simp only [hu] at h; exact (Except.noConfusion h)
      | ok user =>
      simp only [hu] at h
      cases hpu : phaseUser t user db with
      | error ep => simp only [hpu] at h; exact (Except.noConfusion h)
      | ok dbU =>
      simp only [hpu] at h
      cases hx : extractedOf t with
      | error e => simp only [hx] at h; exact (Except.noConfusion h)
      | ok ex =>
      simp only [hx] at h
      cases htr : tweetRowOf t user ex.1 ex.2.1 ex.2.2.1 ex.2.2.2.1 with
      | error e => simp only [htr] at h; exact (Except.noConfusion h)
      | ok trow =>
      simp only [htr] at h
      cases hpa : phaseAssoc idv t
          (insertTweetRowDB (replyStub ex.2.2.2.2 dbU) trow) with
      | error ep => simp only [hpa] at h; exact (Except.noConfusion h)
      | ok db8 =>
      simp only [hpa] at h
      obtain ⟨hdb, ho⟩ := Prod.mk.injEq .. ▸ (Except.ok.inj h)
      subst hdb
      -- shorthands for the intermediate stores
      have hPU := phaseUser_ok t user db dbU hpu
      have hRS := replyStub_frame ex.2.2.2.2 dbU
      have hTR := tweetRowOf_spec t user ex.1 ex.2.1 ex.2.2.1 ex.2.2.2.1 trow htr
      have hPA := phaseAssoc_ok idv t (insertTweetRowDB (replyStub ex.2.2.2.2 dbU) trow) db8 hpa
      obtain ⟨⟨idT, hidT, hrowT⟩, ⟨idU, hidU, hrowU⟩, hrep, hgeo, hs1, hs2, hs3, hs4, hs5, hs6⟩ := hTR
      -- the id read inside `tweetRowOf` is the same call as step 1's
      rw [hid] at hidT
      have hidT2 : idT = idv := (Except.ok.inj hidT).symm
      subst hidT2
      -- the tweets table before the insert equals the original one
      have htw0 : (replyStub ex.2.2.2.2 dbU).tweets = db.tweets := by
        rw [hRS.2.1, hPU.1]
      -- the step-1 check guarantees the insert appends
      have hnotex : tweetExists (replyStub ex.2.2.2.2 dbU) trow.id_tweets = false := by
        unfold tweetExists
        rw [htw0, hrowT]
        unfold tweetExists at hex
        exact hex
      have happ : (insertTweetRowDB (replyStub ex.2.2.2.2 dbU) trow).tweets
          = db.tweets ++ [trow] := by
        rw [insertTweetRowDB_insert _ _ hnotex, htw0]
      have hIF := insertTweetRowDB_frame (replyStub ex.2.2.2.2 dbU) trow
      have htw1 : db8.tweets = db.tweets ++ [trow] := by
        rw [hPA.1, happ]
      refine ⟨?_, ?_, Or.inr ⟨ho.symm, rfl, ⟨trow, htw1, hrowT, ⟨user, idU, rfl, hidU, hrowU⟩,
        hrep, hgeo, hs1, hs2, hs3, hs4, hs5, hs6⟩, ?_, ?_, ?_, ?_⟩⟩
      · -- existing user rows survive the whole pipeline
        intro k r hk
        apply hPA.2.1
        rw [lookupUser_congr _ (replyStub ex.2.2.2.2 dbU) k hIF.2.1]
        apply replyStub_lookup
        exact hPU.2.2.2.2.2 k r hk
      · -- the tweet row is present afterwards
        unfold tweetExists
        rw [htw1]
        simp only [List.any_append, List.any_cons, List.any_nil, hrowT,
          Bool.or_false, beq_self_eq_true, Bool.or_true]
      · -- tweet_urls
        intro r hr
        cases hPA.2.2.1 r hr with
        | inr he => exact Or.inr he
        | inl hm =>
            rw [hIF.2.2.1, hRS.2.2.1, hPU.2.1] at hm
            exact Or.inl hm
      · -- tweet_mentions
        intro r hr
        cases hPA.2.2.2.1 r hr with
        | inr he => exact Or.inr he
        | inl hm =>
            rw [hIF.2.2.2.1, hRS.2.2.2.1, hPU.2.2.1] at hm
            exact Or.inl hm
      · -- tweet_tags
        intro r hr
        cases hPA.2.2.2.2.1 r hr with
        | inr he => exact Or.inr he
        | inl hm =>
            rw [hIF.2.2.2.2.1, hRS.2.2.2.2.1, hPU.2.2.2.1] at hm
            exact Or.inl hm
      · -- tweet_media
        intro r hr
        cases hPA.2.2.2.2.2 r hr with
        | inr he => exact Or.inr he
        | inl hm =>
            rw [hIF.2.2.2.2.2, hRS.2.2.2.2.2, hPU.2.2.2.2.1] at hm
            exact Or.inl hm

/-- When the record's post identifier is already stored, the run
short-circuits at step 1, touching nothing. -/
theorem run_skips (db : DB) (t : PyVal) (idv : PyVal)
    (h1 : getItem t "id" = .ok idv) (h2 : tweetExists db (pyStr idv) = true) :
    insertTweetRun db t = .ok (db, .skippedAlreadyPresent) := by
  unfold insertTweetRun
  simp [h1, h2]

/-- A successful `insert_tweet` comes from a successful run. -/
theorem insert_tweet_ok_run (db : DB) (t : PyVal) (d1 : DB) (o : Outcome)
    (h : insert_tweet db t = .ok (d1, o)) :
    insertTweetRun db t = .ok (d1, o) := by
  unfold insert_tweet at h
  cases hr : insertTweetRun db t with
  | error ep =>
      rw [hr] at h
      exact (Except.noConfusion h)
  | ok r =>
      rw [hr] at h
      have h2 : r = (d1, o) := Except.ok.inj h
      rw [h2]

/-! ## Claim theorems -/

/-- C10: the sanitizer is idempotent, and a string with no NUL character is
returned unchanged. -/
theorem c10_sanitizer_idempotent_fixes_nul_free :
    (∀ s : String, removeNullsStr (removeNullsStr s) = removeNullsStr s) ∧
    (∀ s : String, (∀ c ∈ s.data, c ≠ '\x00') → removeNullsStr s = s) := by
  constructor
  · intro s
    unfold removeNullsStr
    show String.mk (List.filter _ (List.filter _ s.data)) = _
    rw [List.filter_filter]
    simp only [Bool.and_self]
  · intro s h
    unfold removeNullsStr
    have hf : s.data.filter (fun c => c != '\x00') = s.data :=
      List.filter_eq_self.mpr (fun a ha => by simpa using h a ha)
    rw [hf]

/-- C10 witness: the NUL-free string "abc" is a fixed point. -/
theorem c10_witness : removeNullsStr "abc" = "abc" :=
  c10_sanitizer_idempotent_fixes_nul_free.2 "abc" (by decide)

/-- C7: `get_id_urls` is get-or-create.  Assuming one row per distinct url
value, resolving `u` keeps that invariant, keeps every existing row,
leaves exactly one row for `u`, is stable under repetition (same store and
same identifier), returns the existing row's identifier without any insert
when one exists, and otherwise appends exactly one fresh row. -/
theorem c7_url_get_or_create (db : DB) (u : PyVal) (db2 : DB) (i : Nat)
    (hU : (db.urls.map Prod.snd).Nodup)
    (h : get_id_urls u db = (db2, i)) :
    ((db2.urls.map Prod.snd).Nodup) ∧
    (∀ p ∈ db.urls, p ∈ db2.urls) ∧
    ((db2.urls.map Prod.snd).count u = 1) ∧
    (get_id_urls u db2 = (db2, i)) ∧
    (∀ j, (j, u) ∈ db.urls → (db2 = db ∧ i = j)) ∧
    ((∀ j, (j, u) ∉ db.urls) →
      db2.urls = db.urls ++ [(db.nextUrlId, u)]) := by
  unfold get_id_urls at h
  cases hf : db.urls.find? (fun r => r.2 == u) with
  | some r =>
      rw [hf] at h
      obtain ⟨h1, h2⟩ := Prod.mk.injEq .. ▸ h
      subst h1
      subst h2
      have hr2 : r.2 = u := by simpa using List.find?_some hf
      have hrmem : r ∈ db.urls := List.mem_of_find?_eq_some hf
      refine ⟨hU, fun p hp => hp, ?_, ?_, ?_, ?_⟩
      · exact List.count_eq_one_of_mem hU (List.mem_map.mpr ⟨r, hrmem, hr2⟩)
      · unfold get_id_urls
        rw [hf]
      · intro j hj
        refine ⟨rfl, ?_⟩
        have hje : (j, u) = r :=
          List.inj_on_of_nodup_map hU hj hrmem (by simp [hr2])
        exact congrArg Prod.fst hje.symm
      · intro hnone
        have hru : (r.1, u) ∈ db.urls := by
          rw [← hr2]
          exact hrmem
        exact absurd hru (hnone r.1)
  | none =>
      rw [hf] at h
      obtain ⟨h1, h2⟩ := Prod.mk.injEq .. ▸ h
      subst h1
      subst h2
      have hnotin : u ∉ db.urls.map Prod.snd := by
        intro hmem
        obtain ⟨p, hp, hpu⟩ := List.mem_map.mp hmem
        have hfp := List.find?_eq_none.mp hf p hp
        rw [hpu] at hfp
        simp at hfp
      refine ⟨?_, ?_, ?_, ?_, ?_, ?_⟩
      · simp only [List.map_append, List.map_cons, List.map_nil]
        rw [List.nodup_append]
        refine ⟨hU, List.nodup_singleton u, ?_⟩
        intro a ha hau
        rw [List.mem_singleton.mp hau] at ha
        exact hnotin ha
      · intro p hp
        simp [hp]
      · simp only [List.map_append, List.map_cons, List.map_nil,
          List.count_append]
        rw [List.count_eq_zero_of_not_mem hnotin]
        simp
      · unfold get_id_urls
        simp only [List.find?_append, hf, Option.none_or]
        simp
      · intro j hj
        exact absurd (List.mem_map.mpr ⟨(j, u), hj, rfl⟩) hnotin
      · intro _
        rfl

/-- C7 witness: resolving a fresh url string on the empty store leaves
exactly one row for it. -/
theorem c7_witness :
    ((((get_id_urls (.str "http://a") emptyDB).1).urls.map Prod.snd).count
      (.str "http://a")) = 1 :=
  (c7_url_get_or_create emptyDB (.str "http://a")
    (get_id_urls (.str "http://a") emptyDB).1
    (get_id_urls (.str "http://a") emptyDB).2 (by simp [emptyDB]) rfl).2.2.1

/-- C8: author inserts never overwrite.  Any `users` row present before an
`insert_tweet` call — stub or hydrated — is still found, with every field
unchanged, after the call (whether the record hydrates that author,
stubs it as a reply target or mention, or fails and rolls back). -/
theorem c8_author_rows_never_overwritten (db : DB) (t : PyVal) (k : String)
    (r : UserRow) (h : lookupUser db k = some r) :
    lookupUser (ingestDB db t) k = some r := by
  unfold ingestDB
  cases hr2 : insertTweetRun db t with
  | error ep => exact h
  | ok p =>
      obtain ⟨d1, o⟩ := p
      obtain ⟨idv, _, hlk, _⟩ := insertTweetRun_ok db t d1 o hr2
      exact hlk k r h

/-- C8 witness: a stub for author "2" survives, still un-hydrated, the
ingestion of that author's own record. -/
theorem c8_witness :
    lookupUser (ingestDB dbStub recOK) "2" = some (stubRow "2") :=
  c8_author_rows_never_overwritten dbStub recOK "2" (stubRow "2") rfl

/-- C1: per-record atomicity.  If any statement of the per-record
transaction raises, the committed store is exactly the pre-call store (the
uncommitted partial state is discarded and the record stays eligible for
retry, since its post row was never committed); on success the whole new
state becomes visible at once as the return value. -/
theorem c1_record_atomicity (db : DB) (t : PyVal) :
    (∀ e p, insertTweetRun db t = .error (e, p) →
      ingestDB db t = db ∧ insert_tweet db t = .error e) ∧
    (∀ d o, insertTweetRun db t = .ok (d, o) →
      ingestDB db t = d ∧ insert_tweet db t = .ok (d, o)) := by
  constructor
  · intro e p h
    unfold ingestDB insert_tweet
    rw [h]
    exact ⟨rfl, rfl⟩
  · intro d o h
    unfold ingestDB insert_tweet
    rw [h]
    exact ⟨rfl, rfl⟩

/-- C1 witness: ingesting `recBad` fails after its author row was already
written (the uncommitted state `pBad` differs from the store), yet the
committed store is unchanged. -/
theorem c1_witness :
    insertTweetRun emptyDB recBad = .error (.typeError, pBad) ∧
    pBad ≠ emptyDB ∧
    ingestDB emptyDB recBad = emptyDB :=
  ⟨rfl, by decide,
    ((c1_record_atomicity emptyDB recBad).1 .typeError pBad rfl).1⟩

/-- C2: idempotence per post identifier.  If a `tweets` row with the
record's key already exists, `insert_tweet` writes nothing and returns the
already-present outcome; consequently a second call right after any
successful call leaves the store exactly as the first call left it. -/
theorem c2_idempotent_ingest (db : DB) (t : PyVal) (d1 : DB) (o : Outcome) :
    (∀ idv, getItem t "id" = .ok idv → tweetExists db (pyStr idv) = true →
      insert_tweet db t = .ok (db, .skippedAlreadyPresent)) ∧
    (insert_tweet db t = .ok (d1, o) →
      insert_tweet d1 t = .ok (d1, .skippedAlreadyPresent)) := by
  constructor
  · intro idv h1 h2
    unfold insert_tweet
    rw [run_skips db t idv h1 h2]
  · intro h
    have hrun := insert_tweet_ok_run db t d1 o h
    obtain ⟨idv, hid, _, hex1, _⟩ := insertTweetRun_ok db t d1 o hrun
    unfold insert_tweet
    rw [run_skips d1 t idv hid hex1]

/-- C2 witness: re-ingesting `recOK` right after its first ingestion is a
no-op reporting the already-present outcome. -/
theorem c2_witness :
    insert_tweet (ingestDB emptyDB recOK) recOK
      = .ok (ingestDB emptyDB recOK, .skippedAlreadyPresent) :=
  (c2_idempotent_ingest emptyDB recOK (ingestDB emptyDB recOK) .inserted).2
    (by rfl)

/-- C9: the stored `geo` column is NULL for every ingested record, whatever
geography the record carries — the computed geometry is never persisted. -/
theorem c9_geography_never_persisted (db : DB) (t : PyVal) (d1 : DB)
    (o : Outcome) (h : insert_tweet db t = .ok (d1, o)) :
    ∀ row ∈ d1.tweets, row ∈ db.tweets ∨ row.geo = PyVal.none := by
  have hrun := insert_tweet_ok_run db t d1 o h
  obtain ⟨idv, _, _, _, hbr⟩ := insertTweetRun_ok db t d1 o hrun
  intro row hrow
  cases hbr with
  | inl hskip =>
      rw [hskip.2] at hrow
      exact Or.inl hrow
  | inr hins =>
      obtain ⟨_, _, ⟨trow, htw, _, _, _, hgeo, _⟩, _⟩ := hins
      rw [htw] at hrow
      rcases List.mem_append.mp hrow with hm | hm
      · exact Or.inl hm
      · rw [List.mem_singleton.mp hm]
        exact Or.inr hgeo

/-- C9 witness: `recGeo` carries point coordinates (the geography block
computes a Point), yet the stored row's `geo` column is NULL. -/
theorem c9_witness :
    geoBlock recGeo = .ok (.point (.list [.int 10, .int 20])) ∧
    (∀ row ∈ (ingestDB emptyDB recGeo).tweets,
      row ∈ emptyDB.tweets ∨ row.geo = PyVal.none) :=
  ⟨rfl, c9_geography_never_persisted emptyDB recGeo (ingestDB emptyDB recGeo)
    .inserted (by rfl)⟩

/-- C3 counterexample: a record whose post identifier and author identifier
are both present (as integers) still makes ingestion fail, because `geo`
and `place` are null and the bounding-box fallback's TypeError is not
caught by its `except KeyError` handler. -/
theorem c3_counterexample :
    getItem rec3 "id" = .ok (.int 11) ∧
    getItem rec3 "user" = .ok rec3User ∧
    getItem rec3User "id" = .ok (.int 12) ∧
    insert_tweet emptyDB rec3 = .error .typeError :=
  ⟨rfl, rfl, rfl, rfl⟩

/-- C3 amended: the fallback chains resolve to null/empty only when absence
surfaces as the exception type each tier catches: a record missing both
media wrappers yields the empty media list, a null place yields null
country code and place name, but null `geo` together with null `place`
raises an uncaught TypeError even though the identity fields are intact. -/
theorem c3_amended_fallbacks (kvs : List (String × PyVal)) :
    (kvs.lookup "extended_tweet" = Option.none →
     kvs.lookup "extended_entities" = Option.none →
      extractMedia (.dict kvs) = .ok (.list [])) ∧
    (kvs.lookup "place" = some PyVal.none →
      extractCountryCode (.dict kvs) = .ok .none ∧
      extractPlaceName (.dict kvs) = .ok .none) ∧
    (kvs.lookup "geo" = some PyVal.none →
     kvs.lookup "place" = some PyVal.none →
      geoBlock (.dict kvs) = .error .typeError) := by
  refine ⟨?_, ?_, ?_⟩
  · intro h1 h2
    simp [extractMedia, onKeyError, getItem, h1, h2, bind, Except.bind]
  · intro h
    constructor
    · simp [extractCountryCode, onTKError, getItem, h, bind, Except.bind]
    · simp [extractPlaceName, onTKError, getItem, h, bind, Except.bind]
  · intro h1 h2
    simp [geoBlock, getItem, h1, h2, bind, Except.bind]

/-- C3 amended witness: on a record with null `geo` and null `place` and no
media wrappers, media resolves empty and the country code resolves null,
but the geography block raises TypeError. -/
theorem c3_amended_witness :
    extractMedia (.dict [("geo", PyVal.none), ("place", PyVal.none)])
      = .ok (.list []) ∧
    extractCountryCode (.dict [("geo", PyVal.none), ("place", PyVal.none)])
      = .ok .none ∧
    geoBlock (.dict [("geo", PyVal.none), ("place", PyVal.none)])
      = .error .typeError :=
  ⟨(c3_amended_fallbacks [("geo", PyVal.none), ("place", PyVal.none)]).1
      rfl rfl,
   ((c3_amended_fallbacks [("geo", PyVal.none), ("place", PyVal.none)]).2.1
      rfl).1,
   (c3_amended_fallbacks [("geo", PyVal.none), ("place", PyVal.none)]).2.2
      rfl rfl⟩

/-- C4 counterexample: a record whose top-level `screen_name` carries a NUL
character is ingested successfully and the stored author row's screen name
still contains the NUL — the hydration insert does not sanitize its string
parameters. -/
theorem c4_counterexample :
    insert_tweet emptyDB rec4 = .ok (ingestDB emptyDB rec4, .inserted) ∧
    (ingestDB emptyDB rec4).users.map UserRow.screen_name
      = [.str "a\x00b"] ∧
    sanOK (.str "a\x00b") = false :=
  ⟨rfl, rfl, rfl⟩

/-- C4 amended: the sanitizer returns null unchanged and its output never
contains a NUL; the tweet row's six free-text columns, tag strings and
media type labels are sanitized before storage (author-row strings and url
strings are not). -/
theorem c4_amended_sanitization :
    (remove_nulls PyVal.none = .ok PyVal.none) ∧
    (∀ v w, remove_nulls v = .ok w → sanOK w = true) ∧
    (∀ db t d1 o, insert_tweet db t = .ok (d1, o) →
      (∀ row ∈ d1.tweets, row ∈ db.tweets ∨
        (sanOK row.source = true ∧ sanOK row.text = true ∧
         sanOK row.country_code = true ∧ sanOK row.state_code = true ∧
         sanOK row.lang = true ∧ sanOK row.place_name = true)) ∧
      (∀ r ∈ d1.tweet_tags, r ∈ db.tweet_tags ∨ sanOK r.tag = true) ∧
      (∀ r ∈ d1.tweet_media, r ∈ db.tweet_media ∨ sanOK r.type = true)) := by
  refine ⟨rfl, remove_nulls_sanOK, ?_⟩
  intro db t d1 o h
  have hrun := insert_tweet_ok_run db t d1 o h
  obtain ⟨idv, _, _, _, hbr⟩ := insertTweetRun_ok db t d1 o hrun
  cases hbr with
  | inl hskip =>
      obtain ⟨_, hdd⟩ := hskip
      subst hdd
      exact ⟨fun row hr => Or.inl hr, fun r hr => Or.inl hr,
        fun r hr => Or.inl hr⟩
  | inr hins =>
      obtain ⟨_, _, ⟨trow, htw, _, _, _, _, hs1, hs2, hs3, hs4, hs5, hs6⟩,
        _, _, htags, hmedia⟩ := hins
      refine ⟨?_, ?_, ?_⟩
      · intro row hrow
        rw [htw] at hrow
        rcases List.mem_append.mp hrow with hm | hm
        · exact Or.inl hm
        · rw [List.mem_singleton.mp hm]
          exact Or.inr ⟨hs1, hs2, hs3, hs4, hs5, hs6⟩
      · intro r hr
        cases htags r hr with
        | inl hm => exact Or.inl hm
        | inr he => exact Or.inr he.2
      · intro r hr
        cases hmedia r hr with
        | inl hm => exact Or.inl hm
        | inr he => exact Or.inr he.2

/-- C4 amended witness: the sanitizer strips the NUL out of "a\x00b", and
the tag rows stored for `recGeo` are all NUL-free. -/
theorem c4_amended_witness :
    sanOK (.str "ab") = true ∧
    (∀ r ∈ (ingestDB emptyDB recGeo).tweet_tags,
      r ∈ emptyDB.tweet_tags ∨ sanOK r.tag = true) :=
  ⟨c4_amended_sanitization.2.1 (.str "a\x00b") (.str "ab") rfl,
   (c4_amended_sanitization.2.2 emptyDB recGeo (ingestDB emptyDB recGeo)
      .inserted (by rfl)).2.1⟩

/-- C5 (code bug): the author sub-document carries `screen_name` "alice",
yet the hydrated row stores NULL for it, because the hydration insert reads
the profile fields from the top-level record (`tweet.get('screen_name')`)
instead of the author sub-document. -/
theorem c5_hydration_reads_wrong_level :
    getItem rec5User "screen_name" = .ok (.str "alice") ∧
    insert_tweet emptyDB rec5 = .ok (ingestDB emptyDB rec5, .inserted) ∧
    (ingestDB emptyDB rec5).users.map UserRow.screen_name = [PyVal.none] :=
  ⟨rfl, rfl, rfl⟩

/-- C6 counterexample: the `tweet_urls` association row for `rec6` carries
the raw integer `tweet['id']`, not its decimal string form. -/
theorem c6_counterexample :
    insert_tweet emptyDB rec6 = .ok (ingestDB emptyDB rec6, .inserted) ∧
    (ingestDB emptyDB rec6).tweet_urls.map TweetUrlRow.id_tweets
      = [PyVal.int 6] ∧
    PyVal.int 6 ≠ PyVal.str "6" :=
  ⟨rfl, rfl, by decide⟩

/-- C6 amended: the `tweets` row binds its post and author identifiers (and
any reply-target author identifier) as strings via `str(...)`, while every
association row (post-URL, mention, tag, media) binds the raw `tweet['id']`
value unconverted. -/
theorem c6_amended_identifier_forms (db : DB) (t : PyVal) (d1 : DB)
    (o : Outcome) (h : insert_tweet db t = .ok (d1, o)) :
    ∃ idv, getItem t "id" = .ok idv ∧
      (∀ row ∈ d1.tweets, row ∈ db.tweets ∨
        (row.id_tweets = pyStr idv ∧
         (∃ s, row.id_users = PyVal.str s) ∧
         (row.in_reply_to_user_id = PyVal.none ∨
          ∃ s, row.in_reply_to_user_id = PyVal.str s))) ∧
      (∀ r ∈ d1.tweet_urls, r ∈ db.tweet_urls ∨ r.id_tweets = idv) ∧
      (∀ r ∈ d1.tweet_mentions, r ∈ db.tweet_mentions ∨ r.id_tweets = idv) ∧
      (∀ r ∈ d1.tweet_tags, r ∈ db.tweet_tags ∨ r.id_tweets = idv) ∧
      (∀ r ∈ d1.tweet_media, r ∈ db.tweet_media ∨ r.id_tweets = idv) := by
  have hrun := insert_tweet_ok_run db t d1 o h
  obtain ⟨idv, hid, _, _, hbr⟩ := insertTweetRun_ok db t d1 o hrun
  refine ⟨idv, hid, ?_⟩
  cases hbr with
  | inl hskip =>
      obtain ⟨_, hdd⟩ := hskip
      subst hdd
      exact ⟨fun row hr => Or.inl hr, fun r hr => Or.inl hr,
        fun r hr => Or.inl hr, fun r hr => Or.inl hr, fun r hr => Or.inl hr⟩
  | inr hins =>
      obtain ⟨_, _, ⟨trow, htw, hkey, ⟨u, idU, _, _, hus⟩, hrep, _, _⟩,
        hurls, hmen, htags, hmedia⟩ := hins
      refine ⟨?_, hurls, hmen, ?_, ?_⟩
      · intro row hrow
        rw [htw] at hrow
        rcases List.mem_append.mp hrow with hm | hm
        · exact Or.inl hm
        · rw [List.mem_singleton.mp hm]
          exact Or.inr ⟨hkey, ⟨pyStr idU, hus⟩, hrep⟩
      · intro r hr
        cases htags r hr with
        | inl hm => exact Or.inl hm
        | inr he => exact Or.inr he.1
      · intro r hr
        cases hmedia r hr with
        | inl hm => exact Or.inl hm
        | inr he => exact Or.inr he.1

/-- C6 amended witness: the amended identifier-form property, evaluated on
`rec6` ingested into the empty store. -/
theorem c6_amended_witness :
    ∃ idv, getItem rec6 "id" = .ok idv ∧
      (∀ row ∈ (ingestDB emptyDB rec6).tweets, row ∈ emptyDB.tweets ∨
        (row.id_tweets = pyStr idv ∧
         (∃ s, row.id_users = PyVal.str s) ∧
         (row.in_reply_to_user_id = PyVal.none ∨
          ∃ s, row.in_reply_to_user_id = PyVal.str s))) ∧
      (∀ r ∈ (ingestDB emptyDB rec6).tweet_urls,
        r ∈ emptyDB.tweet_urls ∨ r.id_tweets = idv) ∧
      (∀ r ∈ (ingestDB emptyDB rec6).tweet_mentions,
        r ∈ emptyDB.tweet_mentions ∨ r.id_tweets = idv) ∧
      (∀ r ∈ (ingestDB emptyDB rec6).tweet_tags,
        r ∈ emptyDB.tweet_tags ∨ r.id_tweets = idv) ∧
      (∀ r ∈ (ingestDB emptyDB rec6).tweet_media,
        r ∈ emptyDB.tweet_media ∨ r.id_tweets = idv) :=
  c6_amended_identifier_forms emptyDB rec6 (ingestDB emptyDB rec6) .inserted
    (by rfl)
